import Mathlib

/-!
Verification of the temporal-alignment and bias-correction core of the
bias-correction notebook (`examples/BiasCorrectionOfWeatherForecasts/
biasCorrection.ipynb`).

The notebook's core consists of
* the temporal join `completeDates = vdf.pivot_table(index = 'timestamp',
  columns = 'layerId', values = 'value').dropna().index.to_series(...)`, and
* three derived query layers evaluated by the remote service over the
  aligned snapshot timestamps with per-layer `Mean` aggregation:
  `'$gfs - $era5'` (bias), `'$gfs - $historic_gfs + $historic_era5'`
  (bias-corrected forecast) and
  `'$gfs - $historic_gfs + $historic_era5 - $era5'` (residual bias).

Missing samples are embedded as `none`; scalar values as rationals.
-/

namespace BiasCorrection

/-- A time series: a list of (timestamp, value) records for one variable.
The value is `none` when the sample is missing; several records may carry
the same timestamp.  This embeds one layer's slice of the notebook's
point-query value data frame `pointQuery.vdf`. -/
abbrev TimeSeries := List (Nat × Option ℚ)

/-- All sample values recorded in `s` at timestamp `t` (duplicates kept). -/
def samplesAt (s : TimeSeries) (t : Nat) : List (Option ℚ) :=
  (s.filter fun p => p.1 == t).map Prod.snd

/-- The non-missing sample values recorded in `s` at timestamp `t`. -/
def validSamples (s : TimeSeries) (t : Nat) : List ℚ :=
  (samplesAt s t).filterMap id

/-- Arithmetic mean of a list of rationals (zero on the empty list, which is
never used on an empty list below). -/
def listMean (l : List ℚ) : ℚ :=
  l.sum / l.length

/-- One cell of the notebook's
`vdf.pivot_table(index = 'timestamp', columns = 'layerId', values = 'value')`:
the records of series `s` carrying timestamp `t` are grouped and aggregated
with the pivot table's default mean, which skips missing samples and leaves
the cell missing exactly when no sample at `t` is valid. -/
def collapse (s : TimeSeries) (t : Nat) : Option ℚ :=
  if validSamples s t = [] then none else some (listMean (validSamples s t))

/-- The timestamps of all records of a series. -/
def tstamps (s : TimeSeries) : List Nat :=
  s.map Prod.fst

/-- The row index of the pivot table built from the records of both series:
the sorted, duplicate-free list of all timestamps occurring in either. -/
def pivotIndex (A B : TimeSeries) : List Nat :=
  ((tstamps A ++ tstamps B).insertionSort (· ≤ ·)).dedup

/-- The notebook's `completeDates` computation: pivot the records of the two
layers into a timestamp-indexed table and `dropna()`, keeping exactly the
timestamps whose collapsed cell is defined in both columns, in chronological
order.  This is the Temporal Aligner `align(A,B)`. -/
def align (A B : TimeSeries) : List Nat :=
  (pivotIndex A B).filter fun t => (collapse A t).isSome && (collapse B t).isSome

/-- Modelled from the spec: the remote query service evaluates the derived
`expression` layers with missing-propagating arithmetic — a missing value is
a normal state and any operation with a missing operand yields a missing
result (the notebook relies on the external service's NaN propagation, which
is not part of the repository). -/
def olift2 (f : ℚ → ℚ → ℚ) : Option ℚ → Option ℚ → Option ℚ
  | some a, some b => some (f a b)
  | _, _ => none

/-- Missing-propagating subtraction of optional scalars. -/
def osub (a b : Option ℚ) : Option ℚ :=
  olift2 (· - ·) a b

/-- Missing-propagating addition of optional scalars. -/
def oadd (a b : Option ℚ) : Option ℚ :=
  olift2 (· + ·) a b

/-- Modelled from the spec: the remote service's per-layer temporal `Mean`
aggregation, which the notebook requests with
`'aggregation' : 'Mean'` over the snapshot timestamps of `completeDates`.
Per cell it averages the valid samples at the requested timestamps and is
missing exactly when no valid sample exists there (spec: a cell's mean is
missing when there are no valid samples in the window for that cell). -/
def aggMean {ι : Type} (D : Nat → ι → Option ℚ) (T : List Nat) (c : ι) : Option ℚ :=
  if T.filterMap (fun t => D t c) = [] then none
  else some (listMean (T.filterMap (fun t => D t c)))

/-- The notebook's `biasQueryJson` derived layer `'$gfs - $era5'` over the
two `Mean`-aggregated layers: per cell, the temporal mean of the forecast
over the aligned timestamps minus the temporal mean of the reference over
the same timestamps.  This is the Bias Estimator. -/
def estimateBias {ι : Type} (F R : Nat → ι → Option ℚ) (T : List Nat) (c : ι) : Option ℚ :=
  osub (aggMean F T c) (aggMean R T c)

/-- The notebook's `bias_corrected_forecast` layer
`'$gfs - $historic_gfs + $historic_era5'` (left-associated): per cell,
target forecast minus baseline forecast mean plus baseline reference mean.
This is the Forecast Corrector. -/
def correct {ι : Type} (target bFMean bRMean : ι → Option ℚ) (c : ι) : Option ℚ :=
  oadd (osub (target c) (bFMean c)) (bRMean c)

/-- Residual bias of a corrected field against the target reference:
corrected minus reference, per cell. -/
def residualBias {ι : Type} (corrected ref : ι → Option ℚ) (c : ι) : Option ℚ :=
  osub (corrected c) (ref c)

/-- The notebook's `bias_of_bias_corrected_forecast` layer
`'$gfs - $historic_gfs + $historic_era5 - $era5'` (left-associated),
computing the residual bias in one fused expression. -/
def fusedResidual {ι : Type} (target bFMean bRMean ref : ι → Option ℚ) (c : ι) : Option ℚ :=
  osub (oadd (osub (target c) (bFMean c)) (bRMean c)) (ref c)

/-! ### Helper lemmas about the aligner -/

/-- A series has a valid sample at `t` exactly when some record carries
timestamp `t` with a non-missing value. -/
theorem validSamples_ne_nil_iff (s : TimeSeries) (t : Nat) :
    validSamples s t ≠ [] ↔ ∃ p ∈ s, p.1 = t ∧ p.2 ≠ none := by
  constructor
  · intro h
    obtain ⟨v, hv⟩ := List.exists_mem_of_ne_nil _ h
    rw [validSamples, List.mem_filterMap] at hv
    obtain ⟨o, ho, hov⟩ := hv
    rw [samplesAt, List.mem_map] at ho
    obtain ⟨p, hp, rfl⟩ := ho
    rw [List.mem_filter] at hp
    refine ⟨p, hp.1, by simpa using hp.2, ?_⟩
    intro hnone
    rw [show (id (Prod.snd p) : Option ℚ) = p.2 from rfl, hnone] at hov
    exact Option.noConfusion hov
  · rintro ⟨p, hp, ht, hv⟩
    obtain ⟨v, hv'⟩ := Option.ne_none_iff_exists'.mp hv
    intro hnil
    have hmem : v ∈ validSamples s t := by
      rw [validSamples, List.mem_filterMap]
      refine ⟨some v, ?_, rfl⟩
      rw [samplesAt, List.mem_map]
      exact ⟨p, List.mem_filter.mpr ⟨hp, by simp [ht]⟩, hv'⟩
    rw [hnil] at hmem
    exact List.not_mem_nil _ hmem

/-- A pivot-table cell is defined exactly when the series has at least one
non-missing record at that timestamp. -/
theorem collapse_isSome_iff (s : TimeSeries) (t : Nat) :
    (collapse s t).isSome = true ↔ ∃ p ∈ s, p.1 = t ∧ p.2 ≠ none := by
  rw [← validSamples_ne_nil_iff, collapse]
  by_cases h : validSamples s t = [] <;> simp [h]

/-- A timestamp with a non-missing record belongs to the series'
timestamp list. -/
theorem mem_tstamps_of_defined {s : TimeSeries} {t : Nat}
    (h : ∃ p ∈ s, p.1 = t ∧ p.2 ≠ none) : t ∈ tstamps s := by
  obtain ⟨p, hp, ht, _⟩ := h
  rw [tstamps, List.mem_map]
  exact ⟨p, hp, ht⟩

/-- Membership in the aligned set is decided cell-wise: a timestamp is kept
exactly when both collapsed pivot cells are defined there. -/
theorem mem_align (A B : TimeSeries) (t : Nat) :
    t ∈ align A B ↔ (collapse A t).isSome = true ∧ (collapse B t).isSome = true := by
  rw [align, List.mem_filter]
  constructor
  · intro h
    have h2 := h.2
    simp only [Bool.and_eq_true] at h2
    exact h2
  · rintro ⟨hA, hB⟩
    refine ⟨?_, by simp [hA, hB]⟩
    rw [pivotIndex, List.mem_dedup,
      (List.perm_insertionSort (· ≤ ·) (tstamps A ++ tstamps B)).mem_iff,
      List.mem_append]
    exact Or.inl (mem_tstamps_of_defined ((collapse_isSome_iff A t).mp hA))

/-- The pivot-table index is sorted. -/
theorem pivotIndex_sorted (A B : TimeSeries) :
    List.Sorted (· ≤ ·) (pivotIndex A B) :=
  List.Pairwise.sublist (List.dedup_sublist _)
    (List.sorted_insertionSort (· ≤ ·) (tstamps A ++ tstamps B))

/-- The pivot-table index has no duplicate timestamps. -/
theorem pivotIndex_nodup (A B : TimeSeries) : (pivotIndex A B).Nodup :=
  List.nodup_dedup _

/-- The aligned set is strictly increasing: chronological order without
duplicates. -/
theorem align_sorted (A B : TimeSeries) : List.Sorted (· < ·) (align A B) :=
  List.Sorted.lt_of_le ((pivotIndex_sorted A B).filter _)
    (List.Nodup.filter _ (pivotIndex_nodup A B))

/-- The pivot-table index does not depend on the order of the two series. -/
theorem pivotIndex_symm (A B : TimeSeries) : pivotIndex A B = pivotIndex B A := by
  refine List.eq_of_perm_of_sorted (List.Perm.dedup ?_)
    (pivotIndex_sorted A B) (pivotIndex_sorted B A)
  exact (List.perm_insertionSort _ _).trans
    (List.perm_append_comm.trans (List.perm_insertionSort _ _).symm)

/-! ### Helper lemmas about the missing-propagating arithmetic -/

/-- A lifted operation is missing exactly when one of its operands is. -/
theorem olift2_eq_none (f : ℚ → ℚ → ℚ) (a b : Option ℚ) :
    olift2 f a b = none ↔ a = none ∨ b = none := by
  cases a <;> cases b <;> simp [olift2]

/-- The temporal mean over the empty timestamp list is missing. -/
theorem aggMean_nil {ι : Type} (D : Nat → ι → Option ℚ) (c : ι) :
    aggMean D [] c = none := by
  simp [aggMean]

/-- The temporal mean reads the dataset only at the requested timestamps. -/
theorem aggMean_congr {ι : Type} (D D' : Nat → ι → Option ℚ) (T : List Nat)
    (c : ι) (h : ∀ t ∈ T, D' t c = D t c) : aggMean D' T c = aggMean D T c := by
  have hfm : T.filterMap (fun t => D' t c) = T.filterMap (fun t => D t c) :=
    List.filterMap_congr h
  rw [aggMean, aggMean, hfm]

/-! ### Claim theorems -/

/-- C3: for every pair of TimeSeries `A` and `B`, `align A B` is exactly
the set of timestamps that are present in both inputs with a non-missing
(collapsed) value in both; membership is decided by exact timestamp
equality, so every member lies in the intersection (hence the union) of the
two timestamp lists; and the output is in strictly increasing chronological
order. -/
theorem align_exact_intersection (A B : TimeSeries) :
    (∀ t, t ∈ align A B ↔
      ((collapse A t).isSome = true ∧ (collapse B t).isSome = true)) ∧
    (∀ t, t ∈ align A B → t ∈ tstamps A ∧ t ∈ tstamps B) ∧
    List.Sorted (· < ·) (align A B) := by
  refine ⟨mem_align A B, fun t ht => ?_, align_sorted A B⟩
  rw [mem_align] at ht
  exact ⟨mem_tstamps_of_defined ((collapse_isSome_iff A t).mp ht.1),
    mem_tstamps_of_defined ((collapse_isSome_iff B t).mp ht.2)⟩

/-- C4: alignment is symmetric in its two arguments:
`align A B = align B A` for all series. -/
theorem align_symm (A B : TimeSeries) : align A B = align B A := by
  rw [align, align, pivotIndex_symm A B]
  exact List.filter_congr fun t _ => Bool.and_comm _ _

/-- C10: the aligner first collapses duplicate records per timestamp — the
pivot cell of a timestamp with at least one valid sample is the mean of its
non-missing duplicate values, missing duplicates being ignored — and only
then applies the joint non-missingness test: the output holds each timestamp
at most once, and a timestamp is included exactly when each series has at
least one non-missing record there, even if some duplicate samples are
missing. -/
theorem align_collapses_duplicates (A B : TimeSeries) :
    (align A B).Nodup ∧
    (∀ t, t ∈ align A B ↔
      ((∃ p ∈ A, p.1 = t ∧ p.2 ≠ none) ∧ (∃ p ∈ B, p.1 = t ∧ p.2 ≠ none))) ∧
    (∀ t, validSamples A t ≠ [] →
      collapse A t = some (listMean (validSamples A t))) := by
  refine ⟨List.Nodup.filter _ (pivotIndex_nodup A B), fun t => ?_, fun t h => ?_⟩
  · rw [mem_align, collapse_isSome_iff, collapse_isSome_iff]
  · rw [collapse, if_neg h]

/-- C5: when one input series has no defined (non-missing) values at all,
alignment returns the empty timestamp set — in either argument position and
without raising any error (all operations are total) — and the bias field
computed over that empty aligned set is missing at every cell. -/
theorem align_all_missing (A B : TimeSeries) (ι : Type)
    (F R : Nat → ι → Option ℚ) (c : ι) (hA : ∀ p ∈ A, p.2 = none) :
    align A B = [] ∧ align B A = [] ∧ estimateBias F R (align A B) c = none := by
  have hcol : ∀ t, ¬((collapse A t).isSome = true) := by
    intro t hsome
    obtain ⟨p, hp, _, hv⟩ := (collapse_isSome_iff A t).mp hsome
    exact hv (hA p hp)
  have h1 : align A B = [] := by
    rw [align, List.filter_eq_nil_iff]
    intro t _
    simp only [Bool.and_eq_true, not_and]
    intro hsome
    exact absurd hsome (hcol t)
  have h2 : align B A = [] := by
    rw [align, List.filter_eq_nil_iff]
    intro t _
    simp only [Bool.and_eq_true, not_and]
    intro _
    exact hcol t
  refine ⟨h1, h2, ?_⟩
  rw [h1, estimateBias, aggMean_nil, aggMean_nil]
  rfl

/-- Witness for C5 at a concrete input: the first series has a single,
missing record at timestamp 0; the second has a valid one there. -/
theorem align_all_missing_witness :
    align [((0 : Nat), (none : Option ℚ))] [((0 : Nat), some (1 : ℚ))] = [] ∧
    align [((0 : Nat), some (1 : ℚ))] [((0 : Nat), (none : Option ℚ))] = [] ∧
    estimateBias (fun _ (_ : Unit) => some (2 : ℚ)) (fun _ _ => some (3 : ℚ))
      (align [((0 : Nat), (none : Option ℚ))] [((0 : Nat), some (1 : ℚ))]) () = none :=
  align_all_missing _ _ Unit _ _ ()
    (fun p hp => by rw [List.mem_singleton] at hp; rw [hp])

/-- C1: for every spatial cell whose two temporal means are defined,
the bias estimate is the temporal mean of the forecast over the aligned
timestamps minus the temporal mean of the reference over the same
timestamps — mean-then-subtract — each mean being the average of the
layer's valid samples at exactly those timestamps, and timestamps outside
the aligned set contribute to neither mean. -/
theorem estimateBias_mean_then_subtract {ι : Type} (F R : Nat → ι → Option ℚ)
    (T : List Nat) (c : ι) (mf mr : ℚ)
    (hF : aggMean F T c = some mf) (hR : aggMean R T c = some mr) :
    estimateBias F R T c = some (mf - mr) ∧
    mf = listMean (T.filterMap fun t => F t c) ∧
    mr = listMean (T.filterMap fun t => R t c) ∧
    ∀ (F' R' : Nat → ι → Option ℚ), (∀ t ∈ T, F' t c = F t c) →
      (∀ t ∈ T, R' t c = R t c) →
      estimateBias F' R' T c = estimateBias F R T c := by
  refine ⟨?_, ?_, ?_, ?_⟩
  · rw [estimateBias, hF, hR]; rfl
  · rw [aggMean] at hF
    split at hF
    · exact absurd hF (by simp)
    · exact (Option.some_inj.mp hF).symm
  · rw [aggMean] at hR
    split at hR
    · exact absurd hR (by simp)
    · exact (Option.some_inj.mp hR).symm
  · intro F' R' hF' hR'
    rw [estimateBias, estimateBias, aggMean_congr F F' T c hF',
      aggMean_congr R R' T c hR']

/-- Witness for C1 at a concrete input: constant layers over the single
aligned timestamp 0 on a one-cell grid. -/
theorem estimateBias_mean_then_subtract_witness :
    aggMean (fun _ (_ : Unit) => some (10 : ℚ)) [0] () = some 10 ∧
    aggMean (fun _ (_ : Unit) => some (9 : ℚ)) [0] () = some 9 ∧
    estimateBias (fun _ (_ : Unit) => some (10 : ℚ)) (fun _ _ => some (9 : ℚ))
      [0] () = some (10 - 9) := by
  have h10 : aggMean (fun _ (_ : Unit) => some (10 : ℚ)) [0] () = some 10 := by
    norm_num [aggMean, listMean, List.filterMap]
  have h9 : aggMean (fun _ (_ : Unit) => some (9 : ℚ)) [0] () = some 9 := by
    norm_num [aggMean, listMean, List.filterMap]
  exact ⟨h10, h9,
    (estimateBias_mean_then_subtract _ _ [0] () 10 9 h10 h9).1⟩

/-- C2: for every cell where all three operands are defined, the corrected
forecast is target forecast minus baseline forecast mean plus baseline
reference mean, which equals the target forecast minus the bias
(baseline forecast mean minus baseline reference mean). -/
theorem correct_additive_shift {ι : Type} (target bFMean bRMean : ι → Option ℚ)
    (c : ι) (t f r : ℚ) (ht : target c = some t) (hf : bFMean c = some f)
    (hr : bRMean c = some r) :
    correct target bFMean bRMean c = some (t - f + r) ∧
    t - f + r = t - (f - r) := by
  rw [correct, ht, hf, hr]
  exact ⟨rfl, by ring⟩

/-- Witness for C2 at a concrete input: a target forecast of 15 under a
baseline bias of 3 − 2 = 1 is corrected to 14. -/
theorem correct_additive_shift_witness :
    correct (fun _ : Unit => some (15 : ℚ)) (fun _ => some 3) (fun _ => some 2) ()
      = some (15 - 3 + 2) ∧ (15 : ℚ) - 3 + 2 = 15 - (3 - 2) :=
  correct_additive_shift _ _ _ () 15 3 2 rfl rfl rfl

/-- C6: missing values propagate cell-wise through all core arithmetic:
a bias cell is missing exactly when the forecast mean or the reference mean
there is missing, a corrected cell exactly when one of its three operands
is, and a residual-bias cell exactly when the corrected field or the
reference is; every operation is total, so a missing value is a normal
state and never an error. -/
theorem missing_propagation (ι : Type) (F R : Nat → ι → Option ℚ)
    (T : List Nat) (target bFMean bRMean ref cor : ι → Option ℚ) (c : ι) :
    (estimateBias F R T c = none ↔
      (aggMean F T c = none ∨ aggMean R T c = none)) ∧
    (correct target bFMean bRMean c = none ↔
      (target c = none ∨ bFMean c = none ∨ bRMean c = none)) ∧
    (residualBias cor ref c = none ↔ (cor c = none ∨ ref c = none)) := by
  refine ⟨?_, ?_, ?_⟩ <;>
    simp [estimateBias, correct, residualBias, osub, oadd, olift2_eq_none,
      or_assoc]

/-- C7: a forecast compared against itself over the same aligned timestamps
has zero bias at every cell where it is defined (and is missing elsewhere). -/
theorem estimateBias_self {ι : Type} (F : Nat → ι → Option ℚ)
    (T : List Nat) (c : ι) :
    estimateBias F F T c = none ∨ estimateBias F F T c = some 0 := by
  cases h : aggMean F T c with
  | none => exact Or.inl (by rw [estimateBias, h]; rfl)
  | some m =>
    refine Or.inr ?_
    rw [estimateBias, h]
    simp [osub, olift2]

/-- Counterexample to C8 as stated: with the baseline forecast mean equal to
the baseline reference mean at every cell — here both missing — the
corrected field is not the target unchanged: at a cell where the target is
defined but the equal baseline means are missing, missing-propagation makes
the corrected value missing. -/
theorem correct_zero_bias_cex :
    (∀ c : Unit, (fun _ : Unit => (none : Option ℚ)) c
      = (fun _ : Unit => (none : Option ℚ)) c) ∧
    correct (fun _ : Unit => some (1 : ℚ)) (fun _ => none) (fun _ => none) ()
      ≠ (fun _ : Unit => some (1 : ℚ)) () := by
  refine ⟨fun _ => rfl, ?_⟩
  simp [correct, oadd, osub, olift2]

/-- C8 (amended): when the baseline forecast mean and the baseline reference
mean are equal and non-missing at every cell — a genuinely zero bias —
correction is the identity: it returns the target forecast unchanged at
every cell, defined or missing. -/
theorem correct_zero_bias_id {ι : Type} (target bFMean bRMean : ι → Option ℚ)
    (h : ∀ c, ∃ x, bFMean c = some x ∧ bRMean c = some x) :
    ∀ c, correct target bFMean bRMean c = target c := by
  intro c
  obtain ⟨x, hf, hr⟩ := h c
  cases ht : target c with
  | none => simp [correct, ht, hf, hr, osub, oadd, olift2]
  | some v =>
    have hv : v - x + x = v := by ring
    simp [correct, ht, hf, hr, osub, oadd, olift2, hv]

/-- Witness for the amended C8 at a concrete input: equal non-missing
baseline means leave the target value 5 unchanged. -/
theorem correct_zero_bias_id_witness :
    correct (fun _ : Unit => some (5 : ℚ)) (fun _ => some 2) (fun _ => some 2) ()
      = (fun _ : Unit => some (5 : ℚ)) () :=
  correct_zero_bias_id _ _ _ (fun _ => ⟨2, rfl, rfl⟩) ()

/-- C9: at every cell where all four operands are defined, the fused
one-step expression equals composing correction with residual-bias
evaluation, the residual bias is the corrected field minus the target
reference, and its value is the raw target-period bias minus the baseline
bias. -/
theorem residual_fusion {ι : Type} (target bFMean bRMean ref : ι → Option ℚ)
    (c : ι) (t e f r : ℚ) (ht : target c = some t) (he : ref c = some e)
    (hf : bFMean c = some f) (hr : bRMean c = some r) :
    fusedResidual target bFMean bRMean ref c
      = residualBias (correct target bFMean bRMean) ref c ∧
    residualBias (correct target bFMean bRMean) ref c
      = osub (correct target bFMean bRMean c) (ref c) ∧
    fusedResidual target bFMean bRMean ref c = some ((t - e) - (f - r)) := by
  refine ⟨rfl, rfl, ?_⟩
  rw [fusedResidual, ht, he, hf, hr]
  have hq : t - f + r - e = t - e - (f - r) := by ring
  simp [osub, oadd, olift2, hq]

/-- Witness for C9 at a concrete input: target 15, reference 14, baseline
means 3 and 2, so the fused residual is (15 − 14) − (3 − 2) = 0. -/
theorem residual_fusion_witness :
    fusedResidual (fun _ : Unit => some (15 : ℚ)) (fun _ => some 3)
      (fun _ => some 2) (fun _ => some 14) ()
      = some (((15 : ℚ) - 14) - (3 - 2)) :=
  (residual_fusion _ _ _ _ () 15 14 3 2 rfl rfl rfl rfl).2.2

end BiasCorrection
